import Mathlib

/-!
Verification of the techno-economic core of the LCOH calculator.

The source is a single-file React application; the engine functions embedded
below are applyTimezoneCorrection, the capacity-factor clamping performed by
the two profile-provider handlers (fetchPVGISData, fetchRenewableNinjaData),
calculateLCOE, and calculateLCOH (merit-order dispatch plus cost
aggregation).

Modelling conventions:
* JS numbers are modelled as exact rationals; IEEE-754 rounding is not
  modelled.
* Divisions whose divisor can be zero on the paths the properties below
  exercise are modelled by jsDiv, which returns a JSVal (finite value,
  +Infinity, -Infinity or NaN) following JS semantics for a zero divisor
  that arises as exact positive zero.  Divisions whose divisor is nonzero
  under the stated hypotheses use plain rational division.
* React state plumbing, map and chart rendering and the HTTP fetching around
  the engine are outside the embedding.  calculateLCOH is embedded from the
  point where the per-source lcoe fields are resolved (the updatedSources
  value of the source); power sources carry lcoe : Option Rat with none for
  the JS null.
-/

/-- Result of a JS division that may have a zero divisor: a finite value,
positive or negative infinity, or NaN. -/
inductive JSVal where
  | num : ℚ → JSVal
  | posInf : JSVal
  | negInf : JSVal
  | nan : JSVal
deriving DecidableEq

/-- JS division of finite operands, the divisor zero arising as exact
positive zero. -/
def jsDiv (a b : ℚ) : JSVal :=
  if b = 0 then
    if 0 < a then JSVal.posInf else if a < 0 then JSVal.negInf else JSVal.nan
  else JSVal.num (a / b)

/-- JS multiplication of a division result by a finite constant. -/
def jsMulNum (v : JSVal) (c : ℚ) : JSVal :=
  match v with
  | JSVal.num q => JSVal.num (q * c)
  | JSVal.posInf =>
    if 0 < c then JSVal.posInf else if c < 0 then JSVal.negInf else JSVal.nan
  | JSVal.negInf =>
    if 0 < c then JSVal.negInf else if c < 0 then JSVal.posInf else JSVal.nan
  | JSVal.nan => JSVal.nan

/-- List read at an integer index, 0 outside the bounds.  (A JS read of an
out-of-range array index yields undefined; every property below only reads
in-range indices, where the two agree.) -/
def getI (l : List ℚ) (i : ℤ) : ℚ :=
  if h : 0 ≤ i ∧ i < (l.length : ℤ) then l.get ⟨i.toNat, by omega⟩ else 0

/-- Source: applyTimezoneCorrection, body of the double loop; the value the
loop writes into output slot day * 24 + hour. -/
def tzShiftSlot (hourlyData : List ℚ) (offset : ℤ) (day hour : ℕ) : ℚ :=
  let originalIndex : ℕ := day * 24 + hour
  let lh : ℤ := (hour : ℤ) - offset
  let localHour : ℤ := if lh < 0 then lh + 24 else if 24 ≤ lh then lh - 24 else lh
  let localDay : ℤ :=
    if lh < 0 then (if (day : ℤ) - 1 < 0 then 364 else (day : ℤ) - 1)
    else if 24 ≤ lh then (if 365 ≤ (day : ℤ) + 1 then 0 else (day : ℤ) + 1)
    else (day : ℤ)
  let localIndex : ℤ := localDay * 24 + localHour
  if (originalIndex : ℤ) < (hourlyData.length : ℤ) ∧ localIndex < (hourlyData.length : ℤ) then
    getI hourlyData localIndex
  else 0

/-- Source: applyTimezoneCorrection.  The source writes into a zero-filled
array through a double loop over day < 365 and hour < 24, touching slot
day * 24 + hour exactly once; slot i of the output therefore corresponds to
day = i / 24, hour = i % 24.  For inputs of length exactly 8760 (the shape
the round-trip property exercises) this comprehension agrees with the source
loop slot for slot. -/
def applyTimezoneCorrection (hourlyData : List ℚ) (offset : ℤ) : List ℚ :=
  if offset = 0 then hourlyData
  else (List.range (365 * 24)).map (fun i => tzShiftSlot hourlyData offset (i / 24) (i % 24))

/-- Source: fetchPVGISData; a raw PVGIS power sample P (W per kW of peak
power) becomes the clamped capacity factor max(0, min(1, P / 1000)). -/
def pvgisCapacityFactor (P : ℚ) : ℚ := max 0 (min 1 (P / 1000))

/-- Source: fetchRenewableNinjaData; a defined electricity sample is clamped
into the unit interval, an undefined one is recorded as 0. -/
def ninjaCapacityFactor (electricity : Option ℚ) : ℚ :=
  match electricity with
  | some capacityFactor => max 0 (min 1 capacityFactor)
  | none => 0

/-- A power source as calculateLCOH consumes it: the input fields of the
source record plus the resolved lcoe field (none models the JS null). -/
structure PowerSource where
  type : String
  capacity : ℚ
  capex : ℚ
  opex : ℚ
  lcoe : Option ℚ
  timeSeriesData : Option (List ℚ)
deriving DecidableEq

structure Electrolyzer where
  capacity : ℚ
  capex : ℚ
  opex : ℚ
  efficiency : ℚ
  baseConsumption : ℚ
deriving DecidableEq

structure Financial where
  returnRate : ℚ
  lifetime : ℕ
  capacityFactor : ℚ
deriving DecidableEq

/-- JS falsiness of an lcoe field: null and 0 are falsy, every other number
is truthy. -/
def jsFalsy : Option ℚ → Bool
  | none => true
  | some q => q == 0

/-- Source: calculateLCOE; annual energy production in kWh, from the time
series when one with positive length is supplied, otherwise from the default
capacity factor. -/
def annualEnergyProduction (source : PowerSource) (timeSeriesData : Option (List ℚ))
    (financialParams : Financial) : ℚ :=
  match timeSeriesData with
  | some ts =>
    if 0 < ts.length then
      (ts.foldl (fun acc capacityFactor => acc + source.capacity * capacityFactor) 0) * 1000
    else (source.capacity * 1000) * (financialParams.capacityFactor / 100) * 8760
  | none => (source.capacity * 1000) * (financialParams.capacityFactor / 100) * 8760

/-- Source: calculateLCOE; capex plus the discounted yearly opex. -/
def totalPresentValueCost (source : PowerSource) (financialParams : Financial) : ℚ :=
  let capacityKW := source.capacity * 1000
  let discountRate := financialParams.returnRate / 100
  (List.range financialParams.lifetime).foldl
    (fun acc y => acc + source.opex * capacityKW / (1 + discountRate) ^ (y + 1))
    (source.capex * capacityKW)

/-- Source: calculateLCOE; the discounted annual energy. -/
def totalPresentValueEnergy (source : PowerSource) (timeSeriesData : Option (List ℚ))
    (financialParams : Financial) : ℚ :=
  let discountRate := financialParams.returnRate / 100
  (List.range financialParams.lifetime).foldl
    (fun acc y =>
      acc + annualEnergyProduction source timeSeriesData financialParams /
        (1 + discountRate) ^ (y + 1))
    0

/-- Source: calculateLCOE; the final unguarded division. -/
def calculateLCOE (source : PowerSource) (timeSeriesData : Option (List ℚ))
    (financialParams : Financial) : JSVal :=
  jsDiv (totalPresentValueCost source financialParams)
    (totalPresentValueEnergy source timeSeriesData financialParams)

/-- The sortedSources comparator of calculateLCOH, as the predicate "a does
not compare after b": the comparator returns 1 when a.lcoe is falsy, -1 when
b.lcoe is falsy, and a.lcoe - b.lcoe otherwise. -/
def sortKeyLE (a b : PowerSource) : Bool :=
  if jsFalsy a.lcoe then false
  else if jsFalsy b.lcoe then true
  else decide (a.lcoe.getD 0 ≤ b.lcoe.getD 0)

/-- Stable insertion step of the sort. -/
def sortInsert (a : PowerSource) : List PowerSource → List PowerSource
  | [] => [a]
  | b :: l => if sortKeyLE a b then a :: b :: l else b :: sortInsert a l

/-- Source: calculateLCOH, the sortedSources value; a stable sort by the
comparator above. -/
def sortByLcoe (l : List PowerSource) : List PowerSource :=
  l.foldr sortInsert []

/-- Source: calculateLCOH dispatch loop; the capacity factor of a source in
a given hour: the time-series sample when one covers the hour, 1.0 for a
grid source, the default capacity factor otherwise. -/
def sourceCapacityFactor (financial : Financial) (source : PowerSource) (hour : ℕ) : ℚ :=
  match source.timeSeriesData with
  | some ts =>
    if hour < ts.length then ts.getD hour 0
    else if source.type = "grid" then 1 else financial.capacityFactor / 100
  | none => if source.type = "grid" then 1 else financial.capacityFactor / 100

/-- One entry of the per-hour sourceDispatch list. -/
structure SourceDispatch where
  type : String
  powerUsed : ℚ
  powerCurtailed : ℚ
deriving DecidableEq

/-- The mutable state of one hour of the dispatch loop, together with the
cross-hour energyBySource accumulator (an association list in key insertion
order, as JS object entries). -/
structure HourState where
  remainingDemand : ℚ
  hourlyEnergyUsed : ℚ
  hourlyCurtailed : ℚ
  sourceDispatch : List SourceDispatch
  energyBySource : List (String × ℚ)
deriving DecidableEq

/-- Source: energyBySource[source.type] += powerUsed, with a fresh key
appended at the end. -/
def addEnergy (m : List (String × ℚ)) (ty : String) (e : ℚ) : List (String × ℚ) :=
  match m with
  | [] => [(ty, e)]
  | (k, v) :: rest => if k = ty then (k, v + e) :: rest else (k, v) :: addEnergy rest ty e

/-- Source: calculateLCOH, loop body of the per-hour allocation for one
source with a truthy lcoe: allocate min(available, remaining) and curtail
the rest. -/
def dispatchStep (financial : Financial) (hour : ℕ) (source : PowerSource)
    (st : HourState) : HourState :=
  let availablePower := source.capacity * sourceCapacityFactor financial source hour
  let powerUsed := min availablePower st.remainingDemand
  let powerCurtailed := max 0 (availablePower - powerUsed)
  { remainingDemand := st.remainingDemand - powerUsed
    hourlyEnergyUsed := st.hourlyEnergyUsed + powerUsed
    hourlyCurtailed := st.hourlyCurtailed + powerCurtailed
    sourceDispatch := st.sourceDispatch ++ [⟨source.type, powerUsed, powerCurtailed⟩]
    energyBySource := addEnergy st.energyBySource source.type powerUsed }

/-- Source: calculateLCOH, the inner loop over sortedSources for one hour:
break once remainingDemand is not positive, skip a source with falsy lcoe,
otherwise run the allocation step. -/
def dispatchSources (financial : Financial) (hour : ℕ) :
    List PowerSource → HourState → HourState
  | [], st => st
  | source :: rest, st =>
    if st.remainingDemand ≤ 0 then st
    else if jsFalsy source.lcoe then dispatchSources financial hour rest st
    else dispatchSources financial hour rest (dispatchStep financial hour source st)

/-- One entry of hourlyDispatch. -/
structure HourRecord where
  hour : ℕ
  energyUsed : ℚ
  curtailedEnergy : ℚ
  dispatchPercentage : JSVal
  sources : List SourceDispatch
deriving DecidableEq

/-- The accumulated outputs of the 8760-hour loop. -/
structure DispatchState where
  hourlyDispatch : List HourRecord
  totalEnergyUsed : ℚ
  totalCurtailedEnergy : ℚ
  energyBySource : List (String × ℚ)
deriving DecidableEq

def initHourState (capacity : ℚ) (energyBySource : List (String × ℚ)) : HourState :=
  { remainingDemand := capacity, hourlyEnergyUsed := 0, hourlyCurtailed := 0
    sourceDispatch := [], energyBySource := energyBySource }

/-- Source: calculateLCOH, body of the hour loop. -/
def dispatchHour (financial : Financial) (electrolyzer : Electrolyzer)
    (sortedSources : List PowerSource) (st : DispatchState) (hour : ℕ) : DispatchState :=
  let hs := dispatchSources financial hour sortedSources
    (initHourState electrolyzer.capacity st.energyBySource)
  { hourlyDispatch := st.hourlyDispatch ++
      [⟨hour, hs.hourlyEnergyUsed, hs.hourlyCurtailed,
        jsDiv hs.hourlyEnergyUsed electrolyzer.capacity, hs.sourceDispatch⟩]
    totalEnergyUsed := st.totalEnergyUsed + hs.hourlyEnergyUsed
    totalCurtailedEnergy := st.totalCurtailedEnergy + hs.hourlyCurtailed
    energyBySource := hs.energyBySource }

/-- Source: calculateLCOH, the hour loop over the whole year. -/
def runDispatch (sortedSources : List PowerSource) (electrolyzer : Electrolyzer)
    (financial : Financial) : DispatchState :=
  (List.range 8760).foldl (dispatchHour financial electrolyzer sortedSources)
    { hourlyDispatch := [], totalEnergyUsed := 0, totalCurtailedEnergy := 0
      energyBySource := [] }

/-- Source: calculateLCOH; energy needed per kg of hydrogen. -/
def actualEnergyPerKg (electrolyzer : Electrolyzer) : ℚ :=
  electrolyzer.baseConsumption / (electrolyzer.efficiency / 100)

/-- Source: calculateLCOH, capital recovery factor. -/
def crf (financial : Financial) : ℚ :=
  let discountRate := financial.returnRate / 100
  (discountRate * (1 + discountRate) ^ financial.lifetime) /
    ((1 + discountRate) ^ financial.lifetime - 1)

/-- Source: calculateLCOH; annualized capex of the power sources. -/
def totalPowerSourceCapex (sources : List PowerSource) (financial : Financial) : ℚ :=
  sources.foldl (fun acc source => acc + source.capacity * 1000 * source.capex * crf financial) 0

/-- Source: calculateLCOH; total annualized capex. -/
def totalAnnualizedCapex (sources : List PowerSource) (electrolyzer : Electrolyzer)
    (financial : Financial) : ℚ :=
  totalPowerSourceCapex sources financial +
    electrolyzer.capacity * 1000 * electrolyzer.capex * crf financial

/-- Source: calculateLCOH; total annual opex. -/
def totalAnnualOpex (sources : List PowerSource) (electrolyzer : Electrolyzer) : ℚ :=
  sources.foldl (fun acc source => acc + source.capacity * 1000 * source.opex) 0 +
    electrolyzer.capacity * 1000 * electrolyzer.opex

/-- Source: calculateLCOH; dispatched energy priced by the lcoe of the first
source of each kind, entries with a falsy lcoe priced at nothing. -/
def totalEnergyCost (sources : List PowerSource) (energyBySource : List (String × ℚ)) : ℚ :=
  energyBySource.foldl
    (fun acc entry =>
      match sources.find? (fun s => s.type = entry.1) with
      | some source =>
        if jsFalsy source.lcoe then acc else acc + entry.2 * 1000 * source.lcoe.getD 0
      | none => acc) 0

structure EnergyStats where
  totalEnergyUsed : ℚ
  totalCurtailedEnergy : ℚ
  curtailmentPercentage : JSVal
  utilizationRate : JSVal
deriving DecidableEq

structure LCOHResults where
  lcoh : JSVal
  totalAnnualCost : ℚ
  annualH2Production : ℚ
  energyStats : EnergyStats
  hourlyDispatch : List HourRecord
deriving DecidableEq

/-- Source: calculateLCOH, from the point where the sources carry their
final lcoe fields (the updatedSources value).  The monthly reduction, energy
mix and cost-breakdown percentages of the source are presentation reductions
of this same state and are not needed by the properties below. -/
def calculateLCOH (sources : List PowerSource) (electrolyzer : Electrolyzer)
    (financial : Financial) : LCOHResults :=
  let sortedSources := sortByLcoe sources
  let ds := runDispatch sortedSources electrolyzer financial
  let annualH2Production := ds.totalEnergyUsed * 1000 / actualEnergyPerKg electrolyzer
  let totalAnnualCost := totalAnnualizedCapex sources electrolyzer financial +
    totalAnnualOpex sources electrolyzer + totalEnergyCost sources ds.energyBySource
  { lcoh := jsDiv totalAnnualCost annualH2Production
    totalAnnualCost := totalAnnualCost
    annualH2Production := annualH2Production
    energyStats :=
      { totalEnergyUsed := ds.totalEnergyUsed
        totalCurtailedEnergy := ds.totalCurtailedEnergy
        curtailmentPercentage :=
          jsMulNum
            (jsDiv ds.totalCurtailedEnergy (ds.totalEnergyUsed + ds.totalCurtailedEnergy)) 100
        utilizationRate := jsDiv ds.totalEnergyUsed (electrolyzer.capacity * 8760) }
    hourlyDispatch := ds.hourlyDispatch }

/-- Sum of the powerUsed fields of a dispatch record list (measurement
function for the conservation property). -/
def sumPowerUsed (l : List SourceDispatch) : ℚ :=
  (l.map (fun r => r.powerUsed)).sum

/-! ### Concrete inputs used by witnesses and counterexamples -/

/-- The default grid source of the application inputs. -/
def gridSource : PowerSource :=
  { type := "grid", capacity := 100, capex := 0, opex := 80, lcoe := some (5 / 100)
    timeSeriesData := none }

/-- A solar source that has neither a profile nor a computed lcoe. -/
def solarNullSource : PowerSource :=
  { type := "solar", capacity := 150, capex := 0, opex := 0, lcoe := none
    timeSeriesData := none }

/-- A source whose lcoe is exactly 0. -/
def zeroLcoeSource : PowerSource :=
  { type := "solar", capacity := 80, capex := 0, opex := 0, lcoe := some 0
    timeSeriesData := none }

/-- The default electrolyzer, with its capex set to 0 so that concrete cost
evaluations stay small. -/
def demoElectrolyzer : Electrolyzer :=
  { capacity := 100, capex := 0, opex := 40, efficiency := 70, baseConsumption := 50 }

/-- The default financial parameters of the application inputs. -/
def demoFinancial : Financial := { returnRate := 8, lifetime := 20, capacityFactor := 90 }

/-- Ordering invariant that the sortedSources arrangement guarantees between
an earlier element u and a later element v: if v is truthy then u is truthy
with an lcoe at most that of v.  In particular every falsy-lcoe source
(null or 0) ends up after every truthy one. -/
def SortedBefore (u v : PowerSource) : Prop :=
  jsFalsy v.lcoe = false → jsFalsy u.lcoe = false ∧ u.lcoe.getD 0 ≤ v.lcoe.getD 0

/-- A cheap dispatchable source (lcoe 0.03). -/
def cheapSource : PowerSource :=
  { type := "solar", capacity := 50, capex := 0, opex := 0, lcoe := some (3 / 100)
    timeSeriesData := none }

/-- A pricier dispatchable source (lcoe 0.06). -/
def pricySource : PowerSource :=
  { type := "wind", capacity := 100, capex := 0, opex := 0, lcoe := some (6 / 100)
    timeSeriesData := none }

/-- The default grid source with its capacity doubled. -/
def gridSourceDoubled : PowerSource :=
  { type := "grid", capacity := 200, capex := 0, opex := 80, lcoe := some (5 / 100)
    timeSeriesData := none }

/-- A source whose profile exists but produces no energy. -/
def zeroProfileSource : PowerSource :=
  { type := "solar", capacity := 100, capex := 1000, opex := 20, lcoe := none
    timeSeriesData := some [0] }

/-! ### C7, C8, C9 -/

/-- C7: every raw per-hour sample ingested from a profile provider yields a
normalized capacity factor in the unit interval; negative readings floor to
0 and readings above rated output cap at 1 (for PVGIS the rated output is
1000 W per kW of peak power, for Renewable Ninja it is 1). -/
theorem C7_clamping (P cf : ℚ) :
    (0 ≤ pvgisCapacityFactor P ∧ pvgisCapacityFactor P ≤ 1) ∧
    (0 ≤ ninjaCapacityFactor (some cf) ∧ ninjaCapacityFactor (some cf) ≤ 1) ∧
    ninjaCapacityFactor none = 0 ∧
    (P < 0 → pvgisCapacityFactor P = 0) ∧
    (1000 < P → pvgisCapacityFactor P = 1) ∧
    (cf < 0 → ninjaCapacityFactor (some cf) = 0) ∧
    (1 < cf → ninjaCapacityFactor (some cf) = 1) := by
  unfold pvgisCapacityFactor ninjaCapacityFactor
  refine ⟨⟨le_max_left _ _, max_le (by norm_num) (min_le_left _ _)⟩,
    ⟨le_max_left _ _, max_le (by norm_num) (min_le_left _ _)⟩, rfl, ?_, ?_, ?_, ?_⟩
  · intro h
    have h1 : P / 1000 < 0 := div_neg_of_neg_of_pos h (by norm_num)
    rw [min_eq_right (by linarith : P / 1000 ≤ 1)]
    exact max_eq_left h1.le
  · intro h
    have h1 : (1 : ℚ) ≤ P / 1000 := by
      rw [le_div_iff₀ (by norm_num : (0 : ℚ) < 1000)]; linarith
    rw [min_eq_left h1]
    exact max_eq_right (by norm_num)
  · intro h
    show max 0 (min 1 cf) = 0
    rw [min_eq_right (by linarith : cf ≤ 1)]
    exact max_eq_left h.le
  · intro h
    show max 0 (min 1 cf) = 1
    rw [min_eq_left h.le]
    exact max_eq_right (by norm_num)

/-- Witness for C7 at concrete samples. -/
theorem C7_witness :
    pvgisCapacityFactor (-5) = 0 ∧ pvgisCapacityFactor 2000 = 1 ∧
    ninjaCapacityFactor (some (-2)) = 0 ∧ ninjaCapacityFactor (some 2) = 1 :=
  ⟨(C7_clamping (-5) 0).2.2.2.1 (by norm_num),
   (C7_clamping 2000 0).2.2.2.2.1 (by norm_num),
   (C7_clamping 0 (-2)).2.2.2.2.2.1 (by norm_num),
   (C7_clamping 0 2).2.2.2.2.2.2 (by norm_num)⟩

/-- C8: the capital recovery factor is
rate * (1 + rate) ^ lifetime / ((1 + rate) ^ lifetime - 1) with
rate = returnRatePct / 100, and at rate 0.08 and lifetime 20 it is within
1e-4 of 0.10185. -/
theorem C8_crf :
    (∀ financial : Financial,
      crf financial =
        (financial.returnRate / 100 * (1 + financial.returnRate / 100) ^ financial.lifetime) /
          ((1 + financial.returnRate / 100) ^ financial.lifetime - 1)) ∧
    |crf demoFinancial - 10185 / 100000| < 1 / 10000 := by
  constructor
  · intro financial; rfl
  · rw [abs_sub_lt_iff]
    constructor <;> norm_num [crf, demoFinancial]

/-- C9: the LCOE computation and the dispatch simulation are deterministic:
running each on identical inputs produces identical outputs. -/
theorem C9_deterministic (s t : PowerSource) (ts us : Option (List ℚ))
    (p q : Financial) (l m : List PowerSource) (e e2 : Electrolyzer)
    (hst : s = t) (hts : ts = us) (hpq : p = q) (hlm : l = m) (he : e = e2) :
    calculateLCOE s ts p = calculateLCOE t us q ∧
    calculateLCOH l e p = calculateLCOH m e2 q := by
  subst hst hts hpq hlm he; exact ⟨rfl, rfl⟩

/-- Witness for C9 at the default inputs. -/
theorem C9_witness :
    calculateLCOE gridSource none demoFinancial = calculateLCOE gridSource none demoFinancial ∧
    calculateLCOH [gridSource] demoElectrolyzer demoFinancial =
      calculateLCOH [gridSource] demoElectrolyzer demoFinancial :=
  C9_deterministic gridSource gridSource none none demoFinancial demoFinancial
    [gridSource] [gridSource] demoElectrolyzer demoElectrolyzer rfl rfl rfl rfl rfl

/-! ### Ordering facts about the engine sort -/


theorem sortKeyLE_true {a b : PowerSource} (h : sortKeyLE a b = true) :
    jsFalsy a.lcoe = false ∧ (jsFalsy b.lcoe = true ∨ a.lcoe.getD 0 ≤ b.lcoe.getD 0) := by
  by_cases ha : jsFalsy a.lcoe = true
  · exfalso; unfold sortKeyLE at h; rw [ha] at h; simp at h
  · have ha' : jsFalsy a.lcoe = false := by simpa using ha
    refine ⟨ha', ?_⟩
    by_cases hb : jsFalsy b.lcoe = true
    · exact Or.inl hb
    · have hb' : jsFalsy b.lcoe = false := by simpa using hb
      right
      unfold sortKeyLE at h
      rw [ha', hb'] at h
      simpa using h

theorem sortKeyLE_false {a b : PowerSource} (h : sortKeyLE a b = false)
    (ha : jsFalsy a.lcoe = false) :
    jsFalsy b.lcoe = false ∧ b.lcoe.getD 0 < a.lcoe.getD 0 := by
  by_cases hb : jsFalsy b.lcoe = true
  · exfalso; unfold sortKeyLE at h; rw [ha, hb] at h; simp at h
  · have hb' : jsFalsy b.lcoe = false := by simpa using hb
    refine ⟨hb', ?_⟩
    unfold sortKeyLE at h
    rw [ha, hb'] at h
    simp [not_le] at h
    exact h

theorem sortInsert_perm (a : PowerSource) (l : List PowerSource) :
    List.Perm (sortInsert a l) (a :: l) := by
  induction l with
  | nil => simp [sortInsert]
  | cons b t ih =>
    by_cases hc : sortKeyLE a b = true
    · simp [sortInsert, hc]
    · rw [sortInsert, if_neg hc]
      exact (List.Perm.cons b ih).trans (List.Perm.swap a b t)

theorem sortByLcoe_perm (l : List PowerSource) : List.Perm (sortByLcoe l) l := by
  induction l with
  | nil => exact List.Perm.refl _
  | cons a t ih =>
    exact (sortInsert_perm a (sortByLcoe t)).trans (List.Perm.cons a ih)

theorem mem_sortByLcoe {x : PowerSource} {l : List PowerSource} :
    x ∈ sortByLcoe l ↔ x ∈ l :=
  (sortByLcoe_perm l).mem_iff

theorem pairwise_sortInsert {a : PowerSource} {l : List PowerSource}
    (hl : l.Pairwise SortedBefore) : (sortInsert a l).Pairwise SortedBefore := by
  induction l with
  | nil => simp [sortInsert, SortedBefore]
  | cons b t ih =>
    rcases List.pairwise_cons.mp hl with ⟨hbt, ht⟩
    by_cases hc : sortKeyLE a b = true
    · rw [sortInsert, if_pos hc]
      refine List.pairwise_cons.mpr ⟨?_, hl⟩
      intro x hx
      rcases sortKeyLE_true hc with ⟨hta, hOr⟩
      rcases List.mem_cons.mp hx with rfl | hx'
      · intro hvx
        rcases hOr with hfb | hle
        · rw [hvx] at hfb; cases hfb
        · exact ⟨hta, hle⟩
      · intro hvx
        rcases hbt x hx' hvx with ⟨htb, hbx⟩
        rcases hOr with hfb | hle
        · rw [htb] at hfb; cases hfb
        · exact ⟨hta, hle.trans hbx⟩
    · rw [sortInsert, if_neg hc]
      refine List.pairwise_cons.mpr ⟨?_, ih ht⟩
      intro x hx
      have hc' : sortKeyLE a b = false := by simpa using hc
      rcases List.mem_cons.mp ((sortInsert_perm a t).mem_iff.mp hx) with rfl | hx'
      · intro hvx
        rcases sortKeyLE_false hc' hvx with ⟨htb, hlt⟩
        exact ⟨htb, hlt.le⟩
      · exact hbt x hx'

theorem pairwise_sortByLcoe (l : List PowerSource) :
    (sortByLcoe l).Pairwise SortedBefore := by
  induction l with
  | nil => simp [sortByLcoe]
  | cons a t ih =>
    show (sortInsert a (sortByLcoe t)).Pairwise SortedBefore
    exact pairwise_sortInsert ih

/-- In a pairwise-ordered list containing x and y with the order failing
from y to x, some occurrence of x precedes some occurrence of y. -/
theorem pairwise_split {x y : PowerSource} {l : List PowerSource}
    (hp : l.Pairwise SortedBefore) (hx : x ∈ l) (hy : y ∈ l) (hxy : x ≠ y)
    (hnot : ¬ SortedBefore y x) :
    ∃ l1 l2 l3, l = l1 ++ x :: l2 ++ y :: l3 := by
  induction l with
  | nil => cases hx
  | cons a t ih =>
    rcases List.pairwise_cons.mp hp with ⟨hat, ht⟩
    rcases List.mem_cons.mp hx with rfl | hx'
    · have hy' : y ∈ t := by
        rcases List.mem_cons.mp hy with rfl | h
        · exact absurd rfl hxy
        · exact h
      obtain ⟨l2, l3, rfl⟩ := List.append_of_mem hy'
      exact ⟨[], l2, l3, rfl⟩
    · rcases List.mem_cons.mp hy with rfl | hy'
      · exact absurd (hat x hx') hnot
      · obtain ⟨l1, l2, l3, rfl⟩ := ih ht hx' hy'
        exact ⟨a :: l1, l2, l3, rfl⟩

/-! ### Facts about the per-hour dispatch loop -/

theorem dispatchSources_cons (financial : Financial) (hour : ℕ) (s : PowerSource)
    (rest : List PowerSource) (st : HourState) :
    dispatchSources financial hour (s :: rest) st =
      if st.remainingDemand ≤ 0 then st
      else if jsFalsy s.lcoe then dispatchSources financial hour rest st
      else dispatchSources financial hour rest (dispatchStep financial hour s st) := rfl

/-- A state with exhausted demand is a fixed point of the dispatch loop. -/
theorem dispatchSources_stuck {st : HourState} (h : st.remainingDemand ≤ 0)
    (financial : Financial) (hour : ℕ) (l : List PowerSource) :
    dispatchSources financial hour l st = st := by
  cases l with
  | nil => rfl
  | cons s rest => rw [dispatchSources_cons, if_pos h]

/-- The dispatch loop over an appended list is the composition of the two
loops. -/
theorem dispatchSources_append (financial : Financial) (hour : ℕ)
    (l m : List PowerSource) (st : HourState) :
    dispatchSources financial hour (l ++ m) st =
      dispatchSources financial hour m (dispatchSources financial hour l st) := by
  induction l generalizing st with
  | nil => rfl
  | cons s t ih =>
    rw [List.cons_append, dispatchSources_cons, dispatchSources_cons]
    by_cases h : st.remainingDemand ≤ 0
    · rw [if_pos h, if_pos h, dispatchSources_stuck h]
    · rw [if_neg h, if_neg h]
      by_cases hf : jsFalsy s.lcoe = true
      · rw [if_pos hf, if_pos hf, ih]
      · rw [if_neg hf, if_neg hf, ih]

theorem dispatchStep_remaining_le {financial : Financial} {hour : ℕ} {s : PowerSource}
    {st : HourState} (hav : 0 ≤ s.capacity * sourceCapacityFactor financial s hour)
    (hrem : 0 ≤ st.remainingDemand) :
    0 ≤ (dispatchStep financial hour s st).remainingDemand ∧
      (dispatchStep financial hour s st).remainingDemand ≤ st.remainingDemand := by
  have h0 : 0 ≤ min (s.capacity * sourceCapacityFactor financial s hour) st.remainingDemand :=
    le_min hav hrem
  have h1 : min (s.capacity * sourceCapacityFactor financial s hour) st.remainingDemand ≤
      st.remainingDemand := min_le_right _ _
  constructor
  · show (0 : ℚ) ≤ st.remainingDemand -
      min (s.capacity * sourceCapacityFactor financial s hour) st.remainingDemand
    linarith
  · show st.remainingDemand -
      min (s.capacity * sourceCapacityFactor financial s hour) st.remainingDemand ≤
        st.remainingDemand
    linarith

/-- Remaining demand never increases along the loop and stays nonnegative. -/
theorem dispatchSources_remaining_le (financial : Financial) (hour : ℕ)
    (l : List PowerSource) (st : HourState)
    (hav : ∀ s ∈ l, 0 ≤ s.capacity * sourceCapacityFactor financial s hour)
    (hrem : 0 ≤ st.remainingDemand) :
    0 ≤ (dispatchSources financial hour l st).remainingDemand ∧
      (dispatchSources financial hour l st).remainingDemand ≤ st.remainingDemand := by
  induction l generalizing st with
  | nil => exact ⟨hrem, le_refl _⟩
  | cons s t ih =>
    rw [dispatchSources_cons]
    by_cases h : st.remainingDemand ≤ 0
    · rw [if_pos h]; exact ⟨hrem, le_refl _⟩
    · rw [if_neg h]
      by_cases hf : jsFalsy s.lcoe = true
      · rw [if_pos hf]
        exact ih st (fun x hx => hav x (List.mem_cons_of_mem s hx)) hrem
      · rw [if_neg hf]
        obtain ⟨h0, h1⟩ := dispatchStep_remaining_le (hav s (List.mem_cons_self s t)) hrem
        obtain ⟨h2, h3⟩ := ih (dispatchStep financial hour s st)
          (fun x hx => hav x (List.mem_cons_of_mem s hx)) h0
        exact ⟨h2, h3.trans h1⟩

theorem sumPowerUsed_append (l m : List SourceDispatch) :
    sumPowerUsed (l ++ m) = sumPowerUsed l + sumPowerUsed m := by
  simp [sumPowerUsed]

/-- Main invariant of the per-hour loop: remaining demand stays nonnegative,
the sum of allocated power equals the decrease of the remaining demand, and
every freshly appended record books a nonnegative allocation plus a
nonnegative curtailment that together equal the available power of one of
the processed sources. -/
theorem dispatchSources_invariant (financial : Financial) (hour : ℕ)
    (l : List PowerSource) (st : HourState)
    (hav : ∀ s ∈ l, 0 ≤ s.capacity * sourceCapacityFactor financial s hour)
    (hrem : 0 ≤ st.remainingDemand) :
    0 ≤ (dispatchSources financial hour l st).remainingDemand ∧
    sumPowerUsed (dispatchSources financial hour l st).sourceDispatch =
      sumPowerUsed st.sourceDispatch +
        (st.remainingDemand - (dispatchSources financial hour l st).remainingDemand) ∧
    ∀ r ∈ (dispatchSources financial hour l st).sourceDispatch,
      r ∈ st.sourceDispatch ∨
        (0 ≤ r.powerUsed ∧ 0 ≤ r.powerCurtailed ∧
          ∃ s ∈ l, r.type = s.type ∧
            r.powerUsed + r.powerCurtailed =
              s.capacity * sourceCapacityFactor financial s hour) := by
  induction l generalizing st with
  | nil =>
    simp only [dispatchSources]
    exact ⟨hrem, by ring, fun r hr => Or.inl hr⟩
  | cons s t ih =>
    rw [dispatchSources_cons]
    by_cases h : st.remainingDemand ≤ 0
    · rw [if_pos h]
      exact ⟨hrem, by ring, fun r hr => Or.inl hr⟩
    · rw [if_neg h]
      by_cases hf : jsFalsy s.lcoe = true
      · rw [if_pos hf]
        obtain ⟨h1, h2, h3⟩ := ih st (fun x hx => hav x (List.mem_cons_of_mem s hx)) hrem
        refine ⟨h1, h2, fun r hr => ?_⟩
        rcases h3 r hr with hmem | ⟨hu, hc, x, hx, hty, heq⟩
        · exact Or.inl hmem
        · exact Or.inr ⟨hu, hc, x, List.mem_cons_of_mem s hx, hty, heq⟩
      · rw [if_neg hf]
        have hpos : 0 < st.remainingDemand := not_le.mp h
        have havs : 0 ≤ s.capacity * sourceCapacityFactor financial s hour :=
          hav s (List.mem_cons_self s t)
        have hused0 : 0 ≤
            min (s.capacity * sourceCapacityFactor financial s hour) st.remainingDemand :=
          le_min havs hpos.le
        have husedA :
            min (s.capacity * sourceCapacityFactor financial s hour) st.remainingDemand ≤
              s.capacity * sourceCapacityFactor financial s hour := min_le_left _ _
        have husedR :
            min (s.capacity * sourceCapacityFactor financial s hour) st.remainingDemand ≤
              st.remainingDemand := min_le_right _ _
        have hstep_rem : (dispatchStep financial hour s st).remainingDemand =
            st.remainingDemand -
              min (s.capacity * sourceCapacityFactor financial s hour) st.remainingDemand := rfl
        have hstep_disp : (dispatchStep financial hour s st).sourceDispatch =
            st.sourceDispatch ++
              [⟨s.type,
                min (s.capacity * sourceCapacityFactor financial s hour) st.remainingDemand,
                max 0 (s.capacity * sourceCapacityFactor financial s hour -
                  min (s.capacity * sourceCapacityFactor financial s hour)
                    st.remainingDemand)⟩] := rfl
        obtain ⟨h1, h2, h3⟩ := ih (dispatchStep financial hour s st)
          (fun x hx => hav x (List.mem_cons_of_mem s hx)) (by rw [hstep_rem]; linarith)
        refine ⟨h1, ?_, ?_⟩
        · rw [h2, hstep_disp, sumPowerUsed_append, hstep_rem]
          simp only [sumPowerUsed, List.map_cons, List.map_nil, List.sum_cons, List.sum_nil]
          ring
        · intro r hr
          rcases h3 r hr with hmem | ⟨hu, hc, x, hx, hty, heq⟩
          · rw [hstep_disp] at hmem
            rcases List.mem_append.mp hmem with hmem' | hmem'
            · exact Or.inl hmem'
            · have hr' : r = ⟨s.type,
                  min (s.capacity * sourceCapacityFactor financial s hour) st.remainingDemand,
                  max 0 (s.capacity * sourceCapacityFactor financial s hour -
                    min (s.capacity * sourceCapacityFactor financial s hour)
                      st.remainingDemand)⟩ := by simpa using hmem'
              subst hr'
              have hmax : max 0 (s.capacity * sourceCapacityFactor financial s hour -
                  min (s.capacity * sourceCapacityFactor financial s hour)
                    st.remainingDemand) =
                  s.capacity * sourceCapacityFactor financial s hour -
                    min (s.capacity * sourceCapacityFactor financial s hour)
                      st.remainingDemand :=
                max_eq_right (by linarith)
              refine Or.inr ⟨hused0, le_max_left _ _, s, List.mem_cons_self s t, rfl, ?_⟩
              show min (s.capacity * sourceCapacityFactor financial s hour)
                  st.remainingDemand +
                  max 0 (s.capacity * sourceCapacityFactor financial s hour -
                    min (s.capacity * sourceCapacityFactor financial s hour)
                      st.remainingDemand) =
                  s.capacity * sourceCapacityFactor financial s hour
              rw [hmax]; ring
          · exact Or.inr ⟨hu, hc, x, List.mem_cons_of_mem s hx, hty, heq⟩

/-- C2: in every hour of the dispatch simulation, with a positive
electrolyzer capacity, positive source capacities and capacity factors in
the unit interval, the sum of powerUsed over all per-source records never
exceeds the electrolyzer capacity, and every source-hour record has
powerCurtailed = availablePower - powerUsed with powerCurtailed nonnegative
(the loop shown is exactly the body run for each hour of the year). -/
theorem C2_conservation (sources : List PowerSource) (electrolyzer : Electrolyzer)
    (financial : Financial) (hour : ℕ) (ebs : List (String × ℚ))
    (helec : 0 < electrolyzer.capacity)
    (hcap : ∀ s ∈ sources, 0 < s.capacity)
    (hcf : ∀ s ∈ sources, 0 ≤ sourceCapacityFactor financial s hour ∧
      sourceCapacityFactor financial s hour ≤ 1) :
    sumPowerUsed (dispatchSources financial hour (sortByLcoe sources)
        (initHourState electrolyzer.capacity ebs)).sourceDispatch ≤ electrolyzer.capacity ∧
    ∀ r ∈ (dispatchSources financial hour (sortByLcoe sources)
        (initHourState electrolyzer.capacity ebs)).sourceDispatch,
      ∃ s ∈ sources,
        r.type = s.type ∧
        r.powerCurtailed = s.capacity * sourceCapacityFactor financial s hour - r.powerUsed ∧
        0 ≤ r.powerCurtailed := by
  have hav : ∀ s ∈ sortByLcoe sources,
      0 ≤ s.capacity * sourceCapacityFactor financial s hour := by
    intro s hs
    have hs' := mem_sortByLcoe.mp hs
    exact mul_nonneg (hcap s hs').le (hcf s hs').1
  have hinit : (0 : ℚ) ≤ (initHourState electrolyzer.capacity ebs).remainingDemand := helec.le
  obtain ⟨h1, h2, h3⟩ := dispatchSources_invariant financial hour (sortByLcoe sources)
    (initHourState electrolyzer.capacity ebs) hav hinit
  constructor
  · rw [h2]
    have hd : sumPowerUsed (initHourState electrolyzer.capacity ebs).sourceDispatch = 0 := rfl
    have hre : (initHourState electrolyzer.capacity ebs).remainingDemand =
      electrolyzer.capacity := rfl
    rw [hd, hre]
    linarith
  · intro r hr
    rcases h3 r hr with hmem | ⟨hu, hc, s, hs, hty, heq⟩
    · cases hmem
    · exact ⟨s, mem_sortByLcoe.mp hs, hty, by linarith, hc⟩

/-- Witness for C2 at the default grid source and electrolyzer, hour 0. -/
theorem C2_witness :
    sumPowerUsed (dispatchSources demoFinancial 0 (sortByLcoe [gridSource])
      (initHourState demoElectrolyzer.capacity [])).sourceDispatch ≤
      demoElectrolyzer.capacity :=
  (C2_conservation [gridSource] demoElectrolyzer demoFinancial 0 []
    (by norm_num [demoElectrolyzer])
    (by
      intro s hs
      rw [List.mem_singleton] at hs
      subst hs
      norm_num [gridSource])
    (by
      intro s hs
      rw [List.mem_singleton] at hs
      subst hs
      norm_num [sourceCapacityFactor, gridSource])).1



theorem foldl_congr_fun {α β : Type} (f g : β → α → β) (l : List α) (b : β)
    (h : ∀ acc x, f acc x = g acc x) : l.foldl f b = l.foldl g b := by
  induction l generalizing b with
  | nil => rfl
  | cons a t ih => rw [List.foldl_cons, List.foldl_cons, h, ih]

/-- C3: the dispatch simulation allocates in merit order.  The sorted list
never places a falsy-lcoe source (null sorts last) before a truthy one and
a null-lcoe source is skipped by the loop; for two dispatchable sources s1
and s2 with nonzero lcoe values q1 < q2, some occurrence of s1 precedes
some occurrence of s2 in sortedSources, and for every such arrangement and
every hour, if s2 receives a positive allocation (its turn starts with
positive remaining demand and min(available2, remaining) is positive) then
s1 was processed and fully used: its allocation min(available1, remaining
at its turn) equals its whole available power. -/
theorem C3_merit_order (sources : List PowerSource) (electrolyzer : Electrolyzer)
    (financial : Financial) (s1 s2 : PowerSource) (q1 q2 : ℚ)
    (helec : 0 < electrolyzer.capacity)
    (hs1 : s1 ∈ sources) (hs2 : s2 ∈ sources)
    (hl1 : s1.lcoe = some q1) (hl2 : s2.lcoe = some q2)
    (hq1 : q1 ≠ 0) (hq2 : q2 ≠ 0) (hlt : q1 < q2)
    (hav : ∀ s ∈ sources, ∀ h : ℕ, 0 ≤ s.capacity * sourceCapacityFactor financial s h) :
    (sortByLcoe sources).Pairwise
      (fun a b => jsFalsy b.lcoe = false → jsFalsy a.lcoe = false) ∧
    (∀ t : PowerSource, t.lcoe = none → ∀ (hour : ℕ) (st : HourState)
      (rest : List PowerSource),
      dispatchSources financial hour (t :: rest) st =
        if st.remainingDemand ≤ 0 then st else dispatchSources financial hour rest st) ∧
    (∃ l1 l2 l3, sortByLcoe sources = l1 ++ s1 :: l2 ++ s2 :: l3) ∧
    ∀ l1 l2 l3, sortByLcoe sources = l1 ++ s1 :: l2 ++ s2 :: l3 →
      ∀ (hour : ℕ) (ebs : List (String × ℚ)),
      0 < (dispatchSources financial hour (l1 ++ s1 :: l2)
          (initHourState electrolyzer.capacity ebs)).remainingDemand →
      0 < min (s2.capacity * sourceCapacityFactor financial s2 hour)
          (dispatchSources financial hour (l1 ++ s1 :: l2)
            (initHourState electrolyzer.capacity ebs)).remainingDemand →
      0 < (dispatchSources financial hour l1
          (initHourState electrolyzer.capacity ebs)).remainingDemand ∧
        min (s1.capacity * sourceCapacityFactor financial s1 hour)
          (dispatchSources financial hour l1
            (initHourState electrolyzer.capacity ebs)).remainingDemand =
          s1.capacity * sourceCapacityFactor financial s1 hour := by
  have ht1 : jsFalsy s1.lcoe = false := by rw [hl1]; simp [jsFalsy, hq1]
  have ht2 : jsFalsy s2.lcoe = false := by rw [hl2]; simp [jsFalsy, hq2]
  refine ⟨?_, ?_, ?_, ?_⟩
  · exact (pairwise_sortByLcoe sources).imp (fun h hb => (h hb).1)
  · intro t ht hour st rest
    have hft : jsFalsy t.lcoe = true := by rw [ht]; rfl
    rw [dispatchSources_cons]
    by_cases h : st.remainingDemand ≤ 0
    · rw [if_pos h, if_pos h]
    · rw [if_neg h, if_neg h, if_pos hft]
  · have hne : s1 ≠ s2 := by
      intro he
      rw [he, hl2] at hl1
      exact absurd (Option.some_injective ℚ hl1) hlt.ne'
    have hnot : ¬ SortedBefore s2 s1 := by
      intro hsb
      have h := hsb ht1
      rw [hl1, hl2] at h
      have : q2 ≤ q1 := by simpa using h.2
      linarith
    exact pairwise_split (pairwise_sortByLcoe sources)
      (mem_sortByLcoe.mpr hs1) (mem_sortByLcoe.mpr hs2) hne hnot
  · intro l1 l2 l3 hsplit hour ebs hApos hmin
    have havs : ∀ s ∈ sortByLcoe sources,
        0 ≤ s.capacity * sourceCapacityFactor financial s hour := by
      intro s hs
      exact hav s (mem_sortByLcoe.mp hs) hour
    have hmem1 : ∀ x ∈ l1, 0 ≤ x.capacity * sourceCapacityFactor financial x hour := by
      intro x hx
      refine havs x ?_
      rw [hsplit]
      simp [hx]
    have hmem2 : ∀ x ∈ l2, 0 ≤ x.capacity * sourceCapacityFactor financial x hour := by
      intro x hx
      refine havs x ?_
      rw [hsplit]
      simp [hx]
    have hav1 : 0 ≤ s1.capacity * sourceCapacityFactor financial s1 hour :=
      hav s1 hs1 hour
    have hinit : (0 : ℚ) ≤ (initHourState electrolyzer.capacity ebs).remainingDemand :=
      helec.le
    obtain ⟨hB0, hB1⟩ := dispatchSources_remaining_le financial hour l1
      (initHourState electrolyzer.capacity ebs) hmem1 hinit
    -- decompose the run up to the turn of s2
    have hsplitA : dispatchSources financial hour (l1 ++ s1 :: l2)
        (initHourState electrolyzer.capacity ebs) =
        dispatchSources financial hour l2 (dispatchSources financial hour [s1]
          (dispatchSources financial hour l1 (initHourState electrolyzer.capacity ebs))) := by
      rw [dispatchSources_append]
      rw [show s1 :: l2 = [s1] ++ l2 from rfl, dispatchSources_append]
    by_cases hBpos : (dispatchSources financial hour l1
        (initHourState electrolyzer.capacity ebs)).remainingDemand ≤ 0
    · -- then the whole run is stuck, contradicting the positive allocation of s2
      exfalso
      rw [hsplitA, dispatchSources_stuck hBpos, dispatchSources_stuck hBpos] at hApos
      exact absurd hApos (not_lt.mpr hBpos)
    · have hBpos' : 0 < (dispatchSources financial hour l1
          (initHourState electrolyzer.capacity ebs)).remainingDemand := not_le.mp hBpos
      refine ⟨hBpos', ?_⟩
      -- the step of s1 runs
      have hstep : dispatchSources financial hour [s1]
          (dispatchSources financial hour l1 (initHourState electrolyzer.capacity ebs)) =
          dispatchStep financial hour s1
            (dispatchSources financial hour l1 (initHourState electrolyzer.capacity ebs)) := by
        rw [dispatchSources_cons, if_neg hBpos, if_neg (by rw [ht1]; exact Bool.false_ne_true)]
        rfl
      have hstep_rem : HourState.remainingDemand (dispatchStep financial hour s1
          (dispatchSources financial hour l1 (initHourState electrolyzer.capacity ebs))) =
          (dispatchSources financial hour l1
            (initHourState electrolyzer.capacity ebs)).remainingDemand -
            min (s1.capacity * sourceCapacityFactor financial s1 hour)
              (dispatchSources financial hour l1
                (initHourState electrolyzer.capacity ebs)).remainingDemand := rfl
      obtain ⟨hS0, _⟩ := dispatchStep_remaining_le hav1 hB0
      obtain ⟨_, hA2⟩ := dispatchSources_remaining_le financial hour l2
        (dispatchStep financial hour s1 (dispatchSources financial hour l1
          (initHourState electrolyzer.capacity ebs))) hmem2 hS0
      rw [hsplitA, hstep] at hApos
      have hlt2 : 0 < HourState.remainingDemand (dispatchStep financial hour s1
          (dispatchSources financial hour l1 (initHourState electrolyzer.capacity ebs))) :=
        lt_of_lt_of_le hApos hA2
      rw [hstep_rem] at hlt2
      rcases min_cases (s1.capacity * sourceCapacityFactor financial s1 hour)
        (dispatchSources financial hour l1
          (initHourState electrolyzer.capacity ebs)).remainingDemand with
        ⟨heq, _⟩ | ⟨heq, _⟩
      · exact heq
      · rw [heq] at hlt2
        linarith

/-- Witness for C3: with the pricier source listed first, the sort still
places the cheap source before it. -/
theorem C3_witness :
    ∃ l1 l2 l3, sortByLcoe [pricySource, cheapSource] =
      l1 ++ cheapSource :: l2 ++ pricySource :: l3 :=
  (C3_merit_order [pricySource, cheapSource] demoElectrolyzer demoFinancial
    cheapSource pricySource (3 / 100) (6 / 100)
    (by norm_num [demoElectrolyzer])
    (by simp) (by simp) rfl rfl (by norm_num) (by norm_num) (by norm_num)
    (by
      intro s hs h
      simp only [List.mem_cons, List.not_mem_nil, or_false] at hs
      rcases hs with rfl | rfl
      · rw [show sourceCapacityFactor demoFinancial pricySource h =
            demoFinancial.capacityFactor / 100 from rfl]
        norm_num [pricySource, demoFinancial]
      · rw [show sourceCapacityFactor demoFinancial cheapSource h =
            demoFinancial.capacityFactor / 100 from rfl]
        norm_num [cheapSource, demoFinancial])).2.2.1

/-- C10: a source whose lcoe is exactly 0 is treated like a null one: it
sorts after every dispatchable source (everything placed after it is falsy
as well), the per-hour loop is unchanged when it is removed (so it receives
no allocation and books nothing into energyBySource in any hour), and
consequently the whole dispatch run — hourly records, totals and the
per-kind energy that prices the energy cost — is identical with and
without it. -/
theorem C10_zero_lcoe_skipped (sources : List PowerSource) (electrolyzer : Electrolyzer)
    (financial : Financial) (s : PowerSource) (hz : s.lcoe = some 0) :
    (∀ l1 l2, sortByLcoe sources = l1 ++ s :: l2 → ∀ t ∈ l2, jsFalsy t.lcoe = true) ∧
    (∀ (hour : ℕ) (l1 l2 : List PowerSource) (st : HourState),
      dispatchSources financial hour (l1 ++ s :: l2) st =
        dispatchSources financial hour (l1 ++ l2) st) ∧
    (∀ l1 l2, sortByLcoe sources = l1 ++ s :: l2 →
      runDispatch (l1 ++ s :: l2) electrolyzer financial =
        runDispatch (l1 ++ l2) electrolyzer financial) := by
  have hfs : jsFalsy s.lcoe = true := by rw [hz]; rfl
  have hskip : ∀ (hour : ℕ) (l1 l2 : List PowerSource) (st : HourState),
      dispatchSources financial hour (l1 ++ s :: l2) st =
        dispatchSources financial hour (l1 ++ l2) st := by
    intro hour l1 l2 st
    rw [dispatchSources_append, dispatchSources_append, dispatchSources_cons]
    by_cases h : (dispatchSources financial hour l1 st).remainingDemand ≤ 0
    · rw [if_pos h, dispatchSources_stuck h]
    · rw [if_neg h, if_pos hfs]
  refine ⟨?_, hskip, ?_⟩
  · intro l1 l2 hsplit t ht
    have hp := pairwise_sortByLcoe sources
    rw [hsplit] at hp
    have hst : SortedBefore s t := by
      rcases (List.pairwise_append.mp hp) with ⟨_, hrest, _⟩
      exact (List.pairwise_cons.mp hrest).1 t ht
    by_cases hft : jsFalsy t.lcoe = true
    · exact hft
    · have := (hst (by simpa using hft)).1
      rw [hfs] at this
      cases this
  · intro l1 l2 _
    unfold runDispatch
    apply foldl_congr_fun
    intro st hour
    unfold dispatchHour
    rw [hskip hour l1 l2 (initHourState electrolyzer.capacity st.energyBySource)]

/-- Witness for C10: adding a zero-lcoe source leaves the whole dispatch run
unchanged. -/
theorem C10_witness :
    runDispatch [gridSource, zeroLcoeSource] demoElectrolyzer demoFinancial =
      runDispatch [gridSource] demoElectrolyzer demoFinancial := by
  have h1 : jsFalsy gridSource.lcoe = false := by
    show ((5 : ℚ) / 100 == 0) = false
    rw [beq_eq_false_iff_ne]
    norm_num
  have hsorted : sortByLcoe [gridSource, zeroLcoeSource] =
      [gridSource] ++ zeroLcoeSource :: [] := by
    show sortInsert gridSource [zeroLcoeSource] = [gridSource] ++ zeroLcoeSource :: []
    rw [sortInsert, if_pos (show sortKeyLE gridSource zeroLcoeSource = true by
      unfold sortKeyLE; rw [h1]; simp [zeroLcoeSource, jsFalsy])]
    rfl
  have h := (C10_zero_lcoe_skipped [gridSource, zeroLcoeSource] demoElectrolyzer
    demoFinancial zeroLcoeSource rfl).2.2 [gridSource] [] hsorted
  exact h

/-! ### LCOE scaling -/

theorem foldl_add_eq_sum {α : Type} (l : List α) (f : α → ℚ) (a : ℚ) :
    l.foldl (fun acc x => acc + f x) a = a + (l.map f).sum := by
  induction l generalizing a with
  | nil => simp
  | cons b t ih =>
    simp only [List.foldl_cons, List.map_cons, List.sum_cons]
    rw [ih (a + f b)]
    ring

theorem annualEnergyProduction_scale {s s2 : PowerSource} (ts : Option (List ℚ))
    (financialParams : Financial) (hcap : s2.capacity = 2 * s.capacity) :
    annualEnergyProduction s2 ts financialParams =
      2 * annualEnergyProduction s ts financialParams := by
  cases ts with
  | none => simp only [annualEnergyProduction]; rw [hcap]; ring
  | some l =>
    simp only [annualEnergyProduction]
    by_cases h : 0 < l.length
    · rw [if_pos h, if_pos h,
        foldl_add_eq_sum l (fun capacityFactor => s2.capacity * capacityFactor) 0,
        foldl_add_eq_sum l (fun capacityFactor => s.capacity * capacityFactor) 0]
      simp only [hcap]
      have h2 : ∀ cf : ℚ, 2 * s.capacity * cf = 2 * (s.capacity * cf) := fun cf => by ring
      simp only [h2, List.sum_map_mul_left]
      ring
    · rw [if_neg h, if_neg h, hcap]; ring

theorem totalPresentValueCost_scale {s s2 : PowerSource} (financialParams : Financial)
    (hcap : s2.capacity = 2 * s.capacity) (hcapex : s2.capex = s.capex)
    (hopex : s2.opex = s.opex) :
    totalPresentValueCost s2 financialParams =
      2 * totalPresentValueCost s financialParams := by
  show (List.range financialParams.lifetime).foldl
      (fun acc y => acc + s2.opex * (s2.capacity * 1000) /
        (1 + financialParams.returnRate / 100) ^ (y + 1)) (s2.capex * (s2.capacity * 1000)) =
    2 * (List.range financialParams.lifetime).foldl
      (fun acc y => acc + s.opex * (s.capacity * 1000) /
        (1 + financialParams.returnRate / 100) ^ (y + 1)) (s.capex * (s.capacity * 1000))
  rw [foldl_add_eq_sum (List.range financialParams.lifetime)
      (fun y => s2.opex * (s2.capacity * 1000) /
        (1 + financialParams.returnRate / 100) ^ (y + 1)) (s2.capex * (s2.capacity * 1000)),
    foldl_add_eq_sum (List.range financialParams.lifetime)
      (fun y => s.opex * (s.capacity * 1000) /
        (1 + financialParams.returnRate / 100) ^ (y + 1)) (s.capex * (s.capacity * 1000))]
  simp only [hcap, hcapex, hopex]
  have h2 : ∀ y : ℕ, s.opex * (2 * s.capacity * 1000) /
      (1 + financialParams.returnRate / 100) ^ (y + 1) =
      2 * (s.opex * (s.capacity * 1000) /
        (1 + financialParams.returnRate / 100) ^ (y + 1)) := fun y => by ring
  simp only [h2, List.sum_map_mul_left]
  ring

theorem totalPresentValueEnergy_scale {s s2 : PowerSource} (ts : Option (List ℚ))
    (financialParams : Financial) (hcap : s2.capacity = 2 * s.capacity) :
    totalPresentValueEnergy s2 ts financialParams =
      2 * totalPresentValueEnergy s ts financialParams := by
  have hE : annualEnergyProduction s2 ts financialParams =
      2 * annualEnergyProduction s ts financialParams :=
    annualEnergyProduction_scale ts financialParams hcap
  show (List.range financialParams.lifetime).foldl
      (fun acc y => acc + annualEnergyProduction s2 ts financialParams /
        (1 + financialParams.returnRate / 100) ^ (y + 1)) 0 =
    2 * (List.range financialParams.lifetime).foldl
      (fun acc y => acc + annualEnergyProduction s ts financialParams /
        (1 + financialParams.returnRate / 100) ^ (y + 1)) 0
  rw [foldl_add_eq_sum (List.range financialParams.lifetime)
      (fun y => annualEnergyProduction s2 ts financialParams /
        (1 + financialParams.returnRate / 100) ^ (y + 1)) 0,
    foldl_add_eq_sum (List.range financialParams.lifetime)
      (fun y => annualEnergyProduction s ts financialParams /
        (1 + financialParams.returnRate / 100) ^ (y + 1)) 0]
  simp only [hE]
  have h2 : ∀ y : ℕ, 2 * annualEnergyProduction s ts financialParams /
      (1 + financialParams.returnRate / 100) ^ (y + 1) =
      2 * (annualEnergyProduction s ts financialParams /
        (1 + financialParams.returnRate / 100) ^ (y + 1)) := fun y => by ring
  simp only [h2, List.sum_map_mul_left]
  ring

/-- C6: doubling a source capacity while keeping capex per kW, opex per
kW-year and the capacity-factor profile (or default capacity factor)
unchanged leaves the computed LCOE unchanged, for any inputs with positive
present-value energy. -/
theorem C6_lcoe_scaling (s s2 : PowerSource) (ts : Option (List ℚ))
    (financialParams : Financial)
    (hcap : s2.capacity = 2 * s.capacity) (hcapex : s2.capex = s.capex)
    (hopex : s2.opex = s.opex)
    (hpos : 0 < totalPresentValueEnergy s ts financialParams) :
    calculateLCOE s2 ts financialParams = calculateLCOE s ts financialParams := by
  unfold calculateLCOE
  rw [totalPresentValueCost_scale financialParams hcap hcapex hopex,
    totalPresentValueEnergy_scale ts financialParams hcap]
  have hne : totalPresentValueEnergy s ts financialParams ≠ 0 := hpos.ne'
  have hne2 : 2 * totalPresentValueEnergy s ts financialParams ≠ 0 :=
    mul_ne_zero (by norm_num) hne
  unfold jsDiv
  rw [if_neg hne2, if_neg hne]
  congr 1
  exact mul_div_mul_left _ _ (by norm_num : (2 : ℚ) ≠ 0)


/-- Witness for C6 at the default grid source. -/
theorem C6_witness :
    calculateLCOE gridSourceDoubled none demoFinancial =
      calculateLCOE gridSource none demoFinancial :=
  C6_lcoe_scaling gridSource gridSourceDoubled none demoFinancial
    (by norm_num [gridSourceDoubled, gridSource])
    (by norm_num [gridSourceDoubled, gridSource])
    (by norm_num [gridSourceDoubled, gridSource])
    (by
      show (0 : ℚ) < (List.range demoFinancial.lifetime).foldl
        (fun acc y => acc + annualEnergyProduction gridSource none demoFinancial /
          (1 + demoFinancial.returnRate / 100) ^ (y + 1)) 0
      rw [foldl_add_eq_sum (List.range demoFinancial.lifetime)
        (fun y => annualEnergyProduction gridSource none demoFinancial /
          (1 + demoFinancial.returnRate / 100) ^ (y + 1)) 0, zero_add]
      apply List.sum_pos
      · intro x hx
        simp only [List.mem_map, List.mem_range] at hx
        obtain ⟨y, hy, rfl⟩ := hx
        have hE : annualEnergyProduction gridSource none demoFinancial =
            100 * 1000 * (90 / 100) * 8760 := by
          simp [annualEnergyProduction, gridSource, demoFinancial]
        rw [hE]
        have hd : (0 : ℚ) < (1 + demoFinancial.returnRate / 100) ^ (y + 1) := by
          apply pow_pos
          norm_num [demoFinancial]
        positivity
      · intro hnil
        have := congrArg List.length hnil
        simp [demoFinancial] at this)

/-! ### Runs in which no source is dispatchable, and the unguarded divisions -/

/-- A loop over sources that are all falsy leaves the hour state untouched. -/
theorem dispatchSources_falsy (financial : Financial) (hour : ℕ)
    (l : List PowerSource) (st : HourState) (hl : ∀ s ∈ l, jsFalsy s.lcoe = true) :
    dispatchSources financial hour l st = st := by
  induction l with
  | nil => rfl
  | cons s t ih =>
    rw [dispatchSources_cons]
    by_cases h : st.remainingDemand ≤ 0
    · rw [if_pos h]
    · rw [if_neg h, if_pos (hl s (List.mem_cons_self s t))]
      exact ih (fun x hx => hl x (List.mem_cons_of_mem s hx))

theorem foldl_dispatchHour_falsy (financial : Financial) (electrolyzer : Electrolyzer)
    (sortedSources : List PowerSource)
    (hl : ∀ s ∈ sortedSources, jsFalsy s.lcoe = true) :
    ∀ (hours : List ℕ) (st : DispatchState),
      (hours.foldl (dispatchHour financial electrolyzer sortedSources) st).totalEnergyUsed =
          st.totalEnergyUsed ∧
        DispatchState.totalCurtailedEnergy
            (hours.foldl (dispatchHour financial electrolyzer sortedSources) st) =
          st.totalCurtailedEnergy ∧
        (hours.foldl (dispatchHour financial electrolyzer sortedSources) st).energyBySource =
          st.energyBySource := by
  intro hours
  induction hours with
  | nil => intro st; exact ⟨rfl, rfl, rfl⟩
  | cons h t ih =>
    intro st
    rw [List.foldl_cons]
    have hstep : dispatchHour financial electrolyzer sortedSources st h =
        { hourlyDispatch := st.hourlyDispatch ++
            [⟨h, 0, 0, jsDiv 0 electrolyzer.capacity, []⟩]
          totalEnergyUsed := st.totalEnergyUsed + 0
          totalCurtailedEnergy := st.totalCurtailedEnergy + 0
          energyBySource := st.energyBySource } := by
      unfold dispatchHour
      rw [dispatchSources_falsy financial h sortedSources
        (initHourState electrolyzer.capacity st.energyBySource) hl]
      rfl
    rw [hstep]
    obtain ⟨h1, h2, h3⟩ := ih _
    rw [h1, h2, h3]
    exact ⟨by simp, by simp, rfl⟩

/-- With every source falsy, the whole yearly run accumulates nothing. -/
theorem runDispatch_falsy (sortedSources : List PowerSource) (electrolyzer : Electrolyzer)
    (financial : Financial) (hl : ∀ s ∈ sortedSources, jsFalsy s.lcoe = true) :
    (runDispatch sortedSources electrolyzer financial).totalEnergyUsed = 0 ∧
      (runDispatch sortedSources electrolyzer financial).totalCurtailedEnergy = 0 ∧
      (runDispatch sortedSources electrolyzer financial).energyBySource = [] := by
  unfold runDispatch
  exact foldl_dispatchHour_falsy financial electrolyzer sortedSources hl (List.range 8760)
    { hourlyDispatch := [], totalEnergyUsed := 0, totalCurtailedEnergy := 0
      energyBySource := [] }

/-! ### Projection equations of calculateLCOH -/

theorem calculateLCOH_lcoh (sources : List PowerSource) (electrolyzer : Electrolyzer)
    (financial : Financial) :
    (calculateLCOH sources electrolyzer financial).lcoh =
      jsDiv (calculateLCOH sources electrolyzer financial).totalAnnualCost
        (calculateLCOH sources electrolyzer financial).annualH2Production := rfl

theorem calculateLCOH_annualH2 (sources : List PowerSource) (electrolyzer : Electrolyzer)
    (financial : Financial) :
    (calculateLCOH sources electrolyzer financial).annualH2Production =
      (runDispatch (sortByLcoe sources) electrolyzer financial).totalEnergyUsed * 1000 /
        actualEnergyPerKg electrolyzer := rfl

theorem calculateLCOH_cost (sources : List PowerSource) (electrolyzer : Electrolyzer)
    (financial : Financial) :
    (calculateLCOH sources electrolyzer financial).totalAnnualCost =
      totalAnnualizedCapex sources electrolyzer financial +
        totalAnnualOpex sources electrolyzer +
        totalEnergyCost sources
          (runDispatch (sortByLcoe sources) electrolyzer financial).energyBySource := rfl

theorem calculateLCOH_curtailment (sources : List PowerSource) (electrolyzer : Electrolyzer)
    (financial : Financial) :
    (calculateLCOH sources electrolyzer financial).energyStats.curtailmentPercentage =
      jsMulNum (jsDiv
        (runDispatch (sortByLcoe sources) electrolyzer financial).totalCurtailedEnergy
        ((runDispatch (sortByLcoe sources) electrolyzer financial).totalEnergyUsed +
          (runDispatch (sortByLcoe sources) electrolyzer financial).totalCurtailedEnergy))
        100 := rfl

/-! ### The all-null demo configuration -/

theorem demoNull_run :
    DispatchState.totalEnergyUsed
        (runDispatch (sortByLcoe [solarNullSource]) demoElectrolyzer demoFinancial) = 0 ∧
      DispatchState.totalCurtailedEnergy
        (runDispatch (sortByLcoe [solarNullSource]) demoElectrolyzer demoFinancial) = 0 ∧
      DispatchState.energyBySource
        (runDispatch (sortByLcoe [solarNullSource]) demoElectrolyzer demoFinancial) = [] :=
  runDispatch_falsy _ _ _ (by
    intro s hs
    have h := mem_sortByLcoe.mp hs
    rw [List.mem_singleton] at h
    subst h
    rfl)

theorem demoNull_annualH2 :
    (calculateLCOH [solarNullSource] demoElectrolyzer demoFinancial).annualH2Production = 0 := by
  rw [calculateLCOH_annualH2, demoNull_run.1]
  norm_num

theorem demoNull_cost :
    (calculateLCOH [solarNullSource] demoElectrolyzer demoFinancial).totalAnnualCost =
      4000000 := by
  rw [calculateLCOH_cost, demoNull_run.2.2]
  norm_num [totalAnnualizedCapex, totalPowerSourceCapex, totalAnnualOpex, totalEnergyCost,
    solarNullSource, demoElectrolyzer]


/-- C1 (amended): when annual H2 production is 0 and the total annual cost
is positive, the unguarded division makes calculateLCOH return
lcoh = +Infinity — a non-finite value that is distinguishable from a valid
zero and is never coerced to 0 — but no separate error is signalled: the
infinite value is simply stored in the returned result; likewise
calculateLCOE returns +Infinity when the energy present value is 0 and the
cost present value is positive.  The first four hypotheses pin the
parameter domains of the specification (positive return rate, lifetime at
least one year, positive efficiency and base consumption). -/
theorem C1_nonfinite_division (sources : List PowerSource) (electrolyzer : Electrolyzer)
    (financial : Financial) (s : PowerSource) (ts : Option (List ℚ))
    (hrate : 0 < financial.returnRate) (hlife : 1 ≤ financial.lifetime)
    (heff : 0 < electrolyzer.efficiency) (hbase : 0 < electrolyzer.baseConsumption)
    (h2zero : (calculateLCOH sources electrolyzer financial).annualH2Production = 0)
    (hcost : 0 < (calculateLCOH sources electrolyzer financial).totalAnnualCost)
    (hezero : totalPresentValueEnergy s ts financial = 0)
    (hcpos : 0 < totalPresentValueCost s financial) :
    ((calculateLCOH sources electrolyzer financial).lcoh = JSVal.posInf ∧
      ∀ q : ℚ, (calculateLCOH sources electrolyzer financial).lcoh ≠ JSVal.num q) ∧
    (calculateLCOE s ts financial = JSVal.posInf ∧
      ∀ q : ℚ, calculateLCOE s ts financial ≠ JSVal.num q) := by
  constructor
  · rw [calculateLCOH_lcoh, h2zero]
    unfold jsDiv
    rw [if_pos rfl, if_pos hcost]
    exact ⟨rfl, fun q h => by cases h⟩
  · unfold calculateLCOE
    rw [hezero]
    unfold jsDiv
    rw [if_pos rfl, if_pos hcpos]
    exact ⟨rfl, fun q h => by cases h⟩

/-- C1 counterexample: at a configuration whose only source has a null lcoe
(nothing dispatches, no hydrogen is produced, but the electrolyzer opex
keeps the annual cost positive), the returned lcoh is +Infinity.  The
result record carries no error indication of any kind, so the claim that
the computation never returns infinity without signalling fails here. -/
theorem C1_counterexample :
    (calculateLCOH [solarNullSource] demoElectrolyzer demoFinancial).lcoh =
      JSVal.posInf := by
  rw [calculateLCOH_lcoh, demoNull_annualH2, demoNull_cost]
  norm_num [jsDiv]

/-- Witness for C1 at the all-null configuration. -/
theorem C1_witness :
    (calculateLCOH [solarNullSource] demoElectrolyzer demoFinancial).lcoh ≠
      JSVal.num 0 := by
  have hann : annualEnergyProduction zeroProfileSource (some [0]) demoFinancial = 0 := by
    norm_num [annualEnergyProduction, zeroProfileSource]
  have hezero : totalPresentValueEnergy zeroProfileSource (some [0]) demoFinancial = 0 := by
    show (List.range demoFinancial.lifetime).foldl
      (fun acc y => acc + annualEnergyProduction zeroProfileSource (some [0]) demoFinancial /
        (1 + demoFinancial.returnRate / 100) ^ (y + 1)) 0 = 0
    rw [foldl_add_eq_sum (List.range demoFinancial.lifetime)
      (fun y => annualEnergyProduction zeroProfileSource (some [0]) demoFinancial /
        (1 + demoFinancial.returnRate / 100) ^ (y + 1)) 0, zero_add]
    apply List.sum_eq_zero
    intro x hx
    simp only [List.mem_map] at hx
    obtain ⟨y, _, rfl⟩ := hx
    rw [hann]
    simp
  have hcpos : 0 < totalPresentValueCost zeroProfileSource demoFinancial := by
    show (0 : ℚ) < (List.range demoFinancial.lifetime).foldl
      (fun acc y => acc + zeroProfileSource.opex * (zeroProfileSource.capacity * 1000) /
        (1 + demoFinancial.returnRate / 100) ^ (y + 1))
      (zeroProfileSource.capex * (zeroProfileSource.capacity * 1000))
    rw [foldl_add_eq_sum (List.range demoFinancial.lifetime)
      (fun y => zeroProfileSource.opex * (zeroProfileSource.capacity * 1000) /
        (1 + demoFinancial.returnRate / 100) ^ (y + 1))
      (zeroProfileSource.capex * (zeroProfileSource.capacity * 1000))]
    have hsum : 0 ≤ ((List.range demoFinancial.lifetime).map
        (fun y => zeroProfileSource.opex * (zeroProfileSource.capacity * 1000) /
          (1 + demoFinancial.returnRate / 100) ^ (y + 1))).sum := by
      apply List.sum_nonneg
      intro x hx
      simp only [List.mem_map] at hx
      obtain ⟨y, _, rfl⟩ := hx
      have hd : (0 : ℚ) < (1 + demoFinancial.returnRate / 100) ^ (y + 1) := by
        apply pow_pos
        norm_num [demoFinancial]
      have hnum : (0 : ℚ) ≤ zeroProfileSource.opex * (zeroProfileSource.capacity * 1000) := by
        norm_num [zeroProfileSource]
      exact div_nonneg hnum hd.le
    have hcap : (0 : ℚ) < zeroProfileSource.capex * (zeroProfileSource.capacity * 1000) := by
      norm_num [zeroProfileSource]
    linarith
  exact ((C1_nonfinite_division [solarNullSource] demoElectrolyzer demoFinancial
    zeroProfileSource (some [0])
    (by norm_num [demoFinancial]) (by norm_num [demoFinancial])
    (by norm_num [demoElectrolyzer]) (by norm_num [demoElectrolyzer])
    demoNull_annualH2 (by rw [demoNull_cost]; norm_num)
    hezero hcpos).1.2) 0

/-- C4 (amended): the curtailment percentage equals
totalCurtailed / (totalEnergyUsed + totalCurtailed) * 100 whenever the
denominator is nonzero, but the division carries no guard: when both totals
are 0 it evaluates 0 / 0 and the reported percentage is NaN, not 0. -/
theorem C4_curtailment (sources : List PowerSource) (electrolyzer : Electrolyzer)
    (financial : Financial) :
    ((runDispatch (sortByLcoe sources) electrolyzer financial).totalEnergyUsed +
        (runDispatch (sortByLcoe sources) electrolyzer financial).totalCurtailedEnergy ≠ 0 →
      (calculateLCOH sources electrolyzer financial).energyStats.curtailmentPercentage =
        JSVal.num
          ((runDispatch (sortByLcoe sources) electrolyzer financial).totalCurtailedEnergy /
            ((runDispatch (sortByLcoe sources) electrolyzer financial).totalEnergyUsed +
              (runDispatch (sortByLcoe sources) electrolyzer financial).totalCurtailedEnergy) *
            100)) ∧
    ((runDispatch (sortByLcoe sources) electrolyzer financial).totalEnergyUsed = 0 →
      (runDispatch (sortByLcoe sources) electrolyzer financial).totalCurtailedEnergy = 0 →
      (calculateLCOH sources electrolyzer financial).energyStats.curtailmentPercentage =
        JSVal.nan) := by
  constructor
  · intro hne
    rw [calculateLCOH_curtailment]
    unfold jsDiv
    rw [if_neg hne]
    rfl
  · intro hu hc
    rw [calculateLCOH_curtailment, hu, hc]
    norm_num [jsDiv, jsMulNum]

/-- C4 counterexample: at the all-null configuration both totals are 0 and
the reported curtailment percentage is NaN — not the 0 the claim requires,
and the 0 / 0 division is in fact performed. -/
theorem C4_counterexample :
    EnergyStats.curtailmentPercentage
        (calculateLCOH [solarNullSource] demoElectrolyzer demoFinancial).energyStats =
        JSVal.nan ∧
      JSVal.nan ≠ JSVal.num 0 := by
  constructor
  · rw [calculateLCOH_curtailment, demoNull_run.1, demoNull_run.2.1]
    norm_num [jsDiv, jsMulNum]
  · exact fun h => by cases h

/-- Witness for C4 at the all-null configuration. -/
theorem C4_witness :
    EnergyStats.curtailmentPercentage
        (calculateLCOH [solarNullSource] demoElectrolyzer demoFinancial).energyStats =
      JSVal.nan :=
  (C4_curtailment [solarNullSource] demoElectrolyzer demoFinancial).2
    demoNull_run.1 demoNull_run.2.1

/-! ### Timezone correction round trip -/

/-- The slot written by the timezone loop is the circular shift by the
offset: the day and hour wraps of the source agree with subtracting the
offset modulo 8760. -/
theorem tzShiftSlot_eq (data : List ℚ) (o : ℤ) (day hour : ℕ)
    (hlen : data.length = 8760) (hday : day < 365) (hhour : hour < 24)
    (ho : o.natAbs < 24) :
    tzShiftSlot data o day hour = getI data ((((day : ℤ) * 24 + hour) - o) % 8760) := by
  simp only [tzShiftSlot, hlen]
  by_cases hc1 : (hour : ℤ) - o < 0
  · rw [if_pos hc1, if_pos hc1]
    by_cases hd1 : (day : ℤ) - 1 < 0
    · rw [if_pos hd1, if_pos (by push_cast; constructor <;> omega)]
      congr 1
      omega
    · rw [if_neg hd1, if_pos (by push_cast; constructor <;> omega)]
      congr 1
      omega
  · rw [if_neg hc1, if_neg hc1]
    by_cases hc2 : 24 ≤ (hour : ℤ) - o
    · rw [if_pos hc2, if_pos hc2]
      by_cases hd2 : 365 ≤ (day : ℤ) + 1
      · rw [if_pos hd2, if_pos (by push_cast; constructor <;> omega)]
        congr 1
        omega
      · rw [if_neg hd2, if_pos (by push_cast; constructor <;> omega)]
        congr 1
        omega
    · rw [if_neg hc2, if_neg hc2, if_pos (by push_cast; constructor <;> omega)]
      congr 1
      omega

theorem applyTZ_length (data : List ℚ) (o : ℤ) (ho0 : ¬ o = 0) :
    (applyTimezoneCorrection data o).length = 8760 := by
  simp [applyTimezoneCorrection, ho0]

theorem applyTZ_getElem (data : List ℚ) (o : ℤ) (hlen : data.length = 8760)
    (ho0 : ¬ o = 0) (ho : o.natAbs < 24) (i : ℕ)
    (hi : i < (applyTimezoneCorrection data o).length) :
    (applyTimezoneCorrection data o)[i] = getI data (((i : ℤ) - o) % 8760) := by
  have hi8760 : i < 8760 := by rw [applyTZ_length data o ho0] at hi; exact hi
  have hmap : (applyTimezoneCorrection data o)[i] =
      tzShiftSlot data o (i / 24) (i % 24) := by
    simp only [applyTimezoneCorrection, ho0, if_false]
    rw [List.getElem_map, List.getElem_range]
  rw [hmap, tzShiftSlot_eq data o (i / 24) (i % 24) hlen (by omega) (by omega) ho]
  congr 1
  omega

theorem getI_eq_getElem (l : List ℚ) (i : ℤ) (h0 : 0 ≤ i) (h : i.toNat < l.length) :
    getI l i = l[i.toNat] := by
  unfold getI
  rw [dif_pos ⟨h0, by omega⟩]
  simp [List.get_eq_getElem]

/-- C5: for every 8760-element array and every offset o with absolute value
below 24, applying the timezone correction with offset o and then with
offset -o reconstructs the original array — in fact exactly, at every index
including the 364 to 0 day-wrap edge the claim sets aside, because both
wraps are consistent circular shifts modulo 8760. -/
theorem C5_timezone_roundtrip (data : List ℚ) (o : ℤ)
    (hlen : data.length = 8760) (ho : o.natAbs < 24) :
    applyTimezoneCorrection (applyTimezoneCorrection data o) (-o) = data := by
  by_cases ho0 : o = 0
  · subst ho0
    show applyTimezoneCorrection (applyTimezoneCorrection data 0) 0 = data
    rw [show applyTimezoneCorrection data 0 = data from if_pos rfl,
      show applyTimezoneCorrection data 0 = data from if_pos rfl]
  · have hno : ¬ (-o) = 0 := by omega
    have hlenA : (applyTimezoneCorrection data o).length = 8760 := applyTZ_length data o ho0
    apply List.ext_getElem
    · rw [applyTZ_length _ _ hno, hlen]
    · intro i h1 h2
      have hi : i < 8760 := by rw [hlen] at h2; exact h2
      rw [applyTZ_getElem (applyTimezoneCorrection data o) (-o) hlenA hno
        (by simpa using ho) i h1]
      have hj0 : 0 ≤ ((i : ℤ) - (-o)) % 8760 := Int.emod_nonneg _ (by norm_num)
      have hj1 : ((i : ℤ) - (-o)) % 8760 < 8760 := Int.emod_lt_of_pos _ (by norm_num)
      rw [getI_eq_getElem (applyTimezoneCorrection data o) _ hj0 (by rw [hlenA]; omega)]
      rw [applyTZ_getElem data o hlen ho0 ho _
        (by rw [applyTZ_length data o ho0]; omega)]
      have hidx : ((((((i : ℤ) - (-o)) % 8760).toNat : ℤ)) - o) % 8760 = (i : ℤ) := by
        omega
      rw [hidx]
      rw [getI_eq_getElem data _ (by omega) (by rw [hlen]; omega)]
      simp

/-- Witness for C5 on the all-zero year with offset 5. -/
theorem C5_witness :
    applyTimezoneCorrection (applyTimezoneCorrection (List.replicate 8760 0) 5) (-5) =
      List.replicate 8760 0 :=
  C5_timezone_roundtrip (List.replicate 8760 0) 5 (by rw [List.length_replicate]) (by decide)
